import Mathlib

/-!
Shallow embedding of the web-scraper pipeline from
`Week_3/in-class-activity/code_generation_agent/output/web_scraper_20260212_124744/src/main.py`:
the configuration record, the HTTP client with retry/backoff under a pacing
gate, the tolerant markup scan feeding the extraction callbacks, the per-URL
orchestration loop, and the result serializer.  Wall-clock time is modelled as
an explicit rational-valued clock (sleeping advances it by exactly the slept
amount); the network is an oracle mapping each attempt index to its outcome.
-/

/-- Configuration record mirroring `ScraperConfig.__init__` (main.py 47-61). -/
structure ScraperConfig where
  user_agent : String
  delay : ℚ
  max_retries : Nat
  timeout : Nat
  output_format : String
  output_path : String
  deriving DecidableEq

/-- `ExtractedData` (main.py 77-87): page title, links in document order, and
the meta name-to-content mapping (an association list in insertion order). -/
structure ExtractedData where
  title : String
  links : List String
  meta : List (String × String)
  deriving DecidableEq

/-- `ScrapingResult` (main.py 63-75). -/
structure ScrapingResult where
  url : String
  status : Option Nat
  data : Option ExtractedData
  error : Option String
  deriving DecidableEq

/-- `HTTPClient` state (main.py 92-94): the configuration fields the client
reads plus its mutable `last_request_time`. -/
structure HTTPClient where
  delay : ℚ
  max_retries : Nat
  last_request_time : ℚ
  deriving DecidableEq

/-- `HTTPClient.__init__` (main.py 92-94): `last_request_time` starts at 0. -/
def HTTPClient.init (config : ScraperConfig) : HTTPClient :=
  { delay := config.delay, max_retries := config.max_retries, last_request_time := 0 }

/-- Outcome of a single network attempt (`urllib.request.urlopen` plus
`response.read()`): success with the document text, a retriable
`URLError`/`HTTPError` carrying `str(e)`, or any other exception. -/
inductive AttemptOutcome
  | ok (doc : String)
  | retriable (msg : String)
  | fatal (msg : String)
  deriving DecidableEq

/-- The failures `HTTPClient.fetch` can surface: the exception raised on the
last allowed attempt (main.py 125), a non-`URLError` exception propagating
unchanged out of the `try`, or the fall-through raise (main.py 128, reached
only when `max_retries` is 0 and the loop body never runs). -/
inductive FetchErr
  | retriesExhausted (attempts : Nat) (cause : String)
  | propagated (msg : String)
  | unexpected
  deriving DecidableEq

/-- `str(e)` of the exception: the f-string of main.py 125, the original
message for a propagated exception, and the literal of main.py 128. -/
def FetchErr.message : FetchErr → String
  | .retriesExhausted attempts cause =>
      "Failed after " ++ toString attempts ++ " attempts: " ++ cause
  | .propagated msg => msg
  | .unexpected => "Unexpected error in fetch"

/-- Result of one `_enforce_delay` call: how long it slept, the wall clock
when it returned, and the `last_request_time` it recorded. -/
structure DelayStep where
  slept : ℚ
  now : ℚ
  last : ℚ
  deriving DecidableEq

/-- `HTTPClient._enforce_delay` (main.py 96-101) over the idealized clock:
`elapsed = now - last`; when `elapsed < delay` sleep the remaining
difference, then record the current time as the new `last_request_time`. -/
def enforceDelay (delay now last : ℚ) : DelayStep :=
  let elapsed := now - last
  if elapsed < delay then
    { slept := delay - elapsed, now := now + (delay - elapsed), last := now + (delay - elapsed) }
  else
    { slept := 0, now := now, last := now }

/-- Observable state threaded through one `HTTPClient.fetch` run: wall clock,
the client's `last_request_time`, how many attempts have started, and the
pacing/backoff sleeps performed so far, in order. -/
structure FetchState where
  now : ℚ
  last : ℚ
  attempts : Nat
  pacingSleeps : List ℚ
  backoffSleeps : List ℚ
  deriving DecidableEq

/-- The `self._enforce_delay()` call opening a loop iteration (main.py 119). -/
def stepDelay (delay : ℚ) (s : FetchState) : FetchState :=
  let d := enforceDelay delay s.now s.last
  { now := d.now, last := d.last, attempts := s.attempts + 1,
    pacingSleeps := s.pacingSleeps ++ [d.slept], backoffSleeps := s.backoffSleeps }

/-- A retriable failure on a non-final attempt: the pacing call followed by
`time.sleep(2 ** attempt)` (main.py 126). -/
def retriableStep (delay : ℚ) (attempt : Nat) (s : FetchState) : FetchState :=
  let s1 := stepDelay delay s
  { s1 with now := s1.now + (2 : ℚ) ^ attempt,
            backoffSleeps := s1.backoffSleeps ++ [(2 : ℚ) ^ attempt] }

/-- The `for attempt in range(max_retries)` loop of `HTTPClient.fetch`
(main.py 118-128); `fuel` is the number of loop iterations still allowed
(`max_retries - attempt`).  Each iteration enforces the delay and tries the
network: return on success, re-raise a non-`URLError` exception, raise
`RetriesExhausted` when `attempt == max_retries - 1`, otherwise back off and
go around; falling off the loop raises the main.py 128 exception. -/
def fetchLoop (net : Nat → AttemptOutcome) (maxRetries : Nat) (delay : ℚ) :
    Nat → Nat → FetchState → Except FetchErr String × FetchState
  | 0, _, s => (.error .unexpected, s)
  | fuel + 1, attempt, s =>
    match net attempt with
    | .ok doc => (.ok doc, stepDelay delay s)
    | .fatal msg => (.error (.propagated msg), stepDelay delay s)
    | .retriable msg =>
        if attempt = maxRetries - 1 then
          (.error (.retriesExhausted maxRetries msg), stepDelay delay s)
        else
          fetchLoop net maxRetries delay fuel (attempt + 1) (retriableStep delay attempt s)

/-- `HTTPClient.fetch` (main.py 103-128), started at wall-clock `now`: run the
loop for up to `max_retries` iterations from attempt index 0. -/
def HTTPClient.fetch (client : HTTPClient) (net : Nat → AttemptOutcome) (now : ℚ) :
    Except FetchErr String × FetchState :=
  fetchLoop net client.max_retries client.delay client.max_retries 0
    { now := now, last := client.last_request_time, attempts := 0,
      pacingSleeps := [], backoffSleeps := [] }

/-- Structural events of the markup scan.  Modelled from the spec: the
MarkupScanner event source of spec section 4.3 (the stdlib base parser is not
part of the repository) — each recognized tag-open token yields the lowercased
tag name, its attribute list, and the raw source text of the tag (what
`get_starttag_text` reports); end tags and text runs are the other events. -/
inductive MEvent
  | startTag (name : String) (attrs : List (String × String)) (raw : String)
  | endTag (name : String)
  | text (data : String)
  deriving DecidableEq

/-- Whether an event is a text run. -/
def MEvent.isText : MEvent → Bool
  | .text _ => true
  | _ => false

/-- Modelled from the spec: section 4.3 — the scan cursor is either inside a
text run (pending characters, reversed), just past a `<`, or inside a tag
(characters after the `<`, reversed). -/
inductive ScanState
  | txt (acc : List Char)
  | lt
  | tag (acc : List Char)
  deriving DecidableEq

/-- Emit a pending text run, if any. -/
def flushTxt (acc : List Char) : List MEvent :=
  if acc.isEmpty then [] else [.text (String.mk acc.reverse)]

/-- Characters allowed to continue a tag name. -/
def tagNameChar (c : Char) : Bool := !c.isWhitespace && c ≠ '/'

/-- Python `str.lower()` over the character list (tag and attribute names are
lowercased by the base parser before reaching the callbacks). -/
def lowerStr (s : String) : String := String.mk (s.data.map Char.toLower)

/-- Modelled from the spec: section 4.3 attribute lists — `name="value"` and
`name=value` pairs with names lowercased; attributes with no value are
skipped.  Fuel-indexed so recursion is structural. -/
def parseAttrsAux : Nat → List Char → List (String × String)
  | 0, _ => []
  | _ + 1, [] => []
  | fuel + 1, c :: cs =>
    if c.isWhitespace then parseAttrsAux fuel cs
    else
      let name := (c :: cs).takeWhile (fun x => !x.isWhitespace && x ≠ '=')
      let rest := (c :: cs).drop name.length
      if name.isEmpty then parseAttrsAux fuel cs
      else
        match rest with
        | '=' :: '"' :: vrest =>
            let v := vrest.takeWhile (fun x => x ≠ '"')
            (lowerStr (String.mk name), String.mk v) :: parseAttrsAux fuel (vrest.drop (v.length + 1))
        | '=' :: vrest =>
            let v := vrest.takeWhile (fun x => !x.isWhitespace)
            (lowerStr (String.mk name), String.mk v) :: parseAttrsAux fuel (vrest.drop v.length)
        | _ => parseAttrsAux fuel rest

/-- Attribute list of a tag body. -/
def parseAttrs (cs : List Char) : List (String × String) := parseAttrsAux (cs.length + 1) cs

/-- Modelled from the spec: section 4.3 — close a tag whose characters between
`<` and `>` are given: a leading `/` makes an end tag, anything else a start
tag carrying its lowercased name, attributes, and raw source text. -/
def finishTag (inner : List Char) : MEvent :=
  match inner with
  | '/' :: rest => .endTag (lowerStr (String.mk (rest.takeWhile tagNameChar)))
  | _ =>
    let name := inner.takeWhile tagNameChar
    .startTag (lowerStr (String.mk name)) (parseAttrs (inner.drop name.length))
      ("<" ++ String.mk inner ++ ">")

/-- Modelled from the spec: section 4.3 — one character of the tolerant scan.
A `<` followed by a letter or `/` opens a tag; a `<` followed by anything
else is replayed as literal text; an open tag runs to the next `>`. -/
def scanStep : ScanState → Char → ScanState × List MEvent
  | .txt acc, c => if c = '<' then (.lt, flushTxt acc) else (.txt (c :: acc), [])
  | .lt, c =>
      if c.isAlpha || c = '/' then (.tag [c], [])
      else if c = '<' then (.lt, [.text "<"])
      else (.txt [c], [.text "<"])
  | .tag acc, c =>
      if c = '>' then (.txt [], [finishTag acc.reverse]) else (.tag (c :: acc), [])

/-- Run the scan from a state over a character list, collecting events. -/
def scanFrom (st : ScanState) : List Char → ScanState × List MEvent
  | [] => (st, [])
  | c :: cs =>
      let q := scanStep st c
      let r := scanFrom q.1 cs
      (r.1, q.2 ++ r.2)

/-- Modelled from the spec: section 4.3 — end of input: a pending text run is
flushed, while an incomplete tag stays buffered (the parser is fed once and
never closed) and yields no event. -/
def finalizeScan : ScanState → List MEvent
  | .txt acc => flushTxt acc
  | .lt => []
  | .tag _ => []

/-- Modelled from the spec: section 4.3 MarkupScanner — the full event stream
of one document. -/
def tokenize (s : String) : List MEvent :=
  (scanFrom (.txt []) s.data).2 ++ finalizeScan (scanFrom (.txt []) s.data).1

/-- The fields of the repository's `HTMLParser` subclass (main.py 133-137)
plus the base parser's record of the raw text of the most recently opened
start tag (what `get_starttag_text` returns); start tags overwrite it and
nothing ever resets it. -/
structure ParserState where
  title : String
  links : List String
  meta : List (String × String)
  starttagText : Option String
  deriving DecidableEq

/-- `dict(attrs)[k]`: the value of the last binding of `k`, if any. -/
def lookupLast (k : String) : List (String × String) → Option String
  | [] => none
  | (k', v) :: rest =>
      match lookupLast k rest with
      | some v' => some v'
      | none => if k' = k then some v else none

/-- Python dict assignment `m[k] = v`: update in place or append. -/
def upsert (k v : String) : List (String × String) → List (String × String)
  | [] => [(k, v)]
  | (k', v') :: rest => if k' = k then (k, v) :: rest else (k', v') :: upsert k v rest

/-- `HTMLParser.handle_starttag` (main.py 139-148): collect every `href` of an
`a` tag; record `meta[name] = content` when a `meta` tag has both. -/
def handle_starttag (st : ParserState) (tag : String) (attrs : List (String × String)) :
    ParserState :=
  if tag = "a" then
    { st with links := st.links ++ attrs.filterMap (fun a => if a.1 = "href" then some a.2 else none) }
  else if tag = "meta" then
    match lookupLast "name" attrs, lookupLast "content" attrs with
    | some n, some c => { st with meta := upsert n c st.meta }
    | _, _ => st
  else st

/-- Python `str.strip()`: drop leading and trailing whitespace. -/
def String.strip (s : String) : String :=
  String.mk ((s.data.dropWhile Char.isWhitespace).reverse.dropWhile Char.isWhitespace).reverse

/-- `HTMLParser.handle_data` (main.py 150-153): set the title exactly when the
raw text of the most recently opened start tag is the literal `<title>`. -/
def handle_data (st : ParserState) (data : String) : ParserState :=
  if st.starttagText = some "<title>" then { st with title := data.strip } else st

/-- Dispatch one scan event to the subclass callbacks; a start tag records its
raw text first, as the base parser does before invoking the callback. -/
def processEvent (st : ParserState) : MEvent → ParserState
  | .startTag name attrs raw => handle_starttag { st with starttagText := some raw } name attrs
  | .endTag _ => st
  | .text d => handle_data st d

/-- `HTMLParser.__init__` (main.py 133-137). -/
def initParser : ParserState :=
  { title := "", links := [], meta := [], starttagText := none }

/-- `DataExtractor.extract` (main.py 166-179): feed the document through the
scan and package title/links/meta; the rule set is accepted and ignored. -/
def DataExtractor.extract (html : String) (rules : List (String × String)) : ExtractedData :=
  let st := (tokenize html).foldl processEvent initParser
  { title := st.title, links := st.links, meta := st.meta }

/-- The call `DataExtractor.extract(html, {})` of main.py 265 as the program
executes it: the `html` argument is the `bytes` value `fetch` returned
(main.py 122, `response.read()`), and the parser's `feed` begins with
`self.rawdata = self.rawdata + data` on a `str` buffer, so the call raises
`TypeError: can only concatenate str (not "bytes") to str` before any parsing
happens, whatever the fetched content is — the scan of
`DataExtractor.extract` (over `str`, above) never runs on this path. -/
def extractFetchedBytes (html : String) (rules : List (String × String)) :
    Except String ExtractedData :=
  .error "can only concatenate str (not \"bytes\") to str"

/-- `scrape_url` (main.py 244-270): build a fresh `HTTPClient` and fetch; on
fetch success set `status = 200` (main.py 264) and then attempt extraction on
the fetched bytes, which raises `TypeError` (see `extractFetchedBytes`) —
caught like every other exception, recorded as `str(e)` in the `error` field
with `data` left null and the already-assigned status 200 kept; on a fetch
failure record that exception's message with status null.  The client's final
timing state is returned alongside. -/
def scrape_url (net : Nat → AttemptOutcome) (url : String) (config : ScraperConfig) (now : ℚ) :
    ScrapingResult × FetchState :=
  match (HTTPClient.init config).fetch net now with
  | (.ok doc, st) =>
      match extractFetchedBytes doc [] with
      | .ok d => ({ url := url, status := some 200, data := some d, error := none }, st)
      | .error e => ({ url := url, status := some 200, data := none, error := some e }, st)
  | (.error e, st) =>
      ({ url := url, status := none, data := none, error := some e.message }, st)

/-- The per-URL loop of `main` (main.py 311-315), threading the wall clock;
the network oracle is indexed first by URL position, then by attempt. -/
def mainLoop (net : Nat → Nat → AttemptOutcome) (config : ScraperConfig) :
    List String → ℚ → List (ScrapingResult × FetchState)
  | [], _ => []
  | url :: rest, now =>
      let r := scrape_url (net 0) url config now
      r :: mainLoop (fun i => net (i + 1)) config rest r.2.now

/-- What the `csv` writer renders for the `Status` cell: `None` becomes the
empty string, an integer its decimal text. -/
def statusCell : Option Nat → String
  | none => ""
  | some n => toString n

/-- One CSV data row (main.py 200-206). -/
def csvRow (result : ScrapingResult) : List String :=
  [ result.url,
    statusCell result.status,
    match result.data with | some d => d.title | none => "",
    match result.data with | some d => String.intercalate ", " d.links | none => "",
    match result.error with | some e => e | none => "" ]

/-- The content `ResultHandler.save_results` writes: the JSON document is the
result list itself; the CSV document is its list of rows (cell lists). -/
inductive SaveOutput
  | json (results : List ScrapingResult)
  | csv (rows : List (List String))
  deriving DecidableEq

/-- `ResultHandler.save_results` (main.py 184-209): dispatch on
`output_format`; an unrecognized format raises before anything is opened or
written. -/
def ResultHandler.save_results (results : List ScrapingResult) (config : ScraperConfig) :
    Except String SaveOutput :=
  if config.output_format = "json" then .ok (.json results)
  else if config.output_format = "csv" then
    .ok (.csv (["URL", "Status", "Title", "Links", "Error"] :: results.map csvRow))
  else .error ("Unsupported output format: " ++ config.output_format)

/-- Whether the scan of `s` ends in plain-text mode (no half-open tag). -/
def ScanState.isTxt : ScanState → Bool
  | .txt _ => true
  | _ => false

/-- The scan of `s` leaves no half-open tag pending. -/
def scanEndsInText (s : String) : Bool := (scanFrom (.txt []) s.data).1.isTxt

/-- `t` is a truncated start tag: a `<`, a letter, and no closing `>`. -/
def isUnclosedStartTag (t : String) : Bool :=
  match t.data with
  | '<' :: c :: rest => c.isAlpha && !(c :: rest).contains '>'
  | _ => false

/-- The stripped text runs the title check accepts, given the raw text of the
most recently opened tag; the parser's final title is the last of these. -/
def titleCandidates : Option String → List MEvent → List String
  | _, [] => []
  | _, .startTag _ _ raw :: es => titleCandidates (some raw) es
  | last, .endTag _ :: es => titleCandidates last es
  | last, .text d :: es =>
      (if last = some "<title>" then [d.strip] else []) ++ titleCandidates last es

/-- `n` successive retriable attempts starting at loop index `a`. -/
def iterRetriable (delay : ℚ) : Nat → Nat → FetchState → FetchState
  | _, 0, s => s
  | a, n + 1, s => iterRetriable delay (a + 1) n (retriableStep delay a s)

theorem stepDelay_attempts (d : ℚ) (s : FetchState) :
    (stepDelay d s).attempts = s.attempts + 1 := rfl

theorem stepDelay_backoff (d : ℚ) (s : FetchState) :
    (stepDelay d s).backoffSleeps = s.backoffSleeps := rfl

theorem stepDelay_pacing (d : ℚ) (s : FetchState) :
    (stepDelay d s).pacingSleeps = s.pacingSleeps ++ [(enforceDelay d s.now s.last).slept] := rfl

theorem stepDelay_now_le (d : ℚ) (s : FetchState) : s.now ≤ (stepDelay d s).now := by
  unfold stepDelay enforceDelay
  dsimp only
  split <;> dsimp only <;> linarith

theorem retriableStep_attempts (d : ℚ) (a : Nat) (s : FetchState) :
    (retriableStep d a s).attempts = s.attempts + 1 := rfl

theorem retriableStep_backoff (d : ℚ) (a : Nat) (s : FetchState) :
    (retriableStep d a s).backoffSleeps = s.backoffSleeps ++ [(2 : ℚ) ^ a] := rfl

theorem retriableStep_pacing (d : ℚ) (a : Nat) (s : FetchState) :
    (retriableStep d a s).pacingSleeps = s.pacingSleeps ++ [(enforceDelay d s.now s.last).slept] := rfl

theorem retriableStep_now_le (d : ℚ) (a : Nat) (s : FetchState) :
    s.now ≤ (retriableStep d a s).now := by
  have h1 := stepDelay_now_le d s
  have h2 : (0 : ℚ) ≤ (2 : ℚ) ^ a := by positivity
  unfold retriableStep
  dsimp only
  linarith

theorem iterRetriable_attempts (d : ℚ) :
    ∀ (n a : Nat) (s : FetchState), (iterRetriable d a n s).attempts = s.attempts + n := by
  intro n
  induction n with
  | zero => intro a s; rfl
  | succ n ih =>
      intro a s
      show (iterRetriable d (a + 1) n (retriableStep d a s)).attempts = _
      rw [ih, retriableStep_attempts]
      omega

theorem iterRetriable_backoff (d : ℚ) :
    ∀ (n a : Nat) (s : FetchState),
      (iterRetriable d a n s).backoffSleeps =
        s.backoffSleeps ++ (List.range n).map (fun j => (2 : ℚ) ^ (a + j)) := by
  intro n
  induction n with
  | zero => intro a s; simp [iterRetriable]
  | succ n ih =>
      intro a s
      show (iterRetriable d (a + 1) n (retriableStep d a s)).backoffSleeps = _
      rw [ih, retriableStep_backoff, List.range_succ_eq_map]
      simp only [List.map_cons, List.map_map, Function.comp_def, Nat.add_zero,
        List.append_assoc, List.singleton_append]
      congr 2
      apply List.map_congr_left
      intro j _
      congr 1
      omega

theorem iterRetriable_now_le (d : ℚ) :
    ∀ (n a : Nat) (s : FetchState), s.now ≤ (iterRetriable d a n s).now := by
  intro n
  induction n with
  | zero => intro a s; exact le_rfl
  | succ n ih =>
      intro a s
      exact le_trans (retriableStep_now_le d a s) (ih (a + 1) (retriableStep d a s))

theorem iterRetriable_pacing_extend (d : ℚ) :
    ∀ (n a : Nat) (s : FetchState),
      ∃ l, (iterRetriable d a n s).pacingSleeps = s.pacingSleeps ++ l := by
  intro n
  induction n with
  | zero => intro a s; exact ⟨[], by simp [iterRetriable]⟩
  | succ n ih =>
      intro a s
      obtain ⟨l, hl⟩ := ih (a + 1) (retriableStep d a s)
      exact ⟨_, by rw [show iterRetriable d a (n + 1) s =
        iterRetriable d (a + 1) n (retriableStep d a s) from rfl, hl,
        retriableStep_pacing, List.append_assoc]⟩

theorem fetchLoop_skip (net : Nat → AttemptOutcome) (k : Nat) (d : ℚ) (msg : Nat → String) :
    ∀ (n a fuel : Nat) (s : FetchState),
      (∀ j, a ≤ j → j < a + n → net j = .retriable (msg j)) →
      a + n < k → n ≤ fuel →
      fetchLoop net k d fuel a s =
        fetchLoop net k d (fuel - n) (a + n) (iterRetriable d a n s) := by
  intro n
  induction n with
  | zero =>
      intro a fuel s _ _ _
      simp [iterRetriable]
  | succ n ih =>
      intro a fuel s hret hlt hfuel
      obtain ⟨fuel', rfl⟩ : ∃ f, fuel = f + 1 := ⟨fuel - 1, by omega⟩
      have ha : net a = .retriable (msg a) := hret a le_rfl (by omega)
      have hne : a ≠ k - 1 := by omega
      show fetchLoop net k d (fuel' + 1) a s = _
      rw [fetchLoop]
      simp only [ha]
      rw [if_neg hne]
      rw [ih (a + 1) fuel' (retriableStep d a s)
        (fun j hj1 hj2 => hret j (by omega) (by omega)) (by omega) (by omega)]
      have h1 : fuel' - n = fuel' + 1 - (n + 1) := by omega
      have h2 : a + 1 + n = a + (n + 1) := by omega
      rw [h1, h2]
      rfl

theorem fetchLoop_now_le (net : Nat → AttemptOutcome) (k : Nat) (d : ℚ) :
    ∀ (fuel a : Nat) (s : FetchState), s.now ≤ (fetchLoop net k d fuel a s).2.now := by
  intro fuel
  induction fuel with
  | zero => intro a s; exact le_rfl
  | succ fuel ih =>
      intro a s
      rw [fetchLoop]
      cases net a with
      | ok doc => exact stepDelay_now_le d s
      | fatal msg => exact stepDelay_now_le d s
      | retriable msg =>
          dsimp only
          split
          · exact stepDelay_now_le d s
          · exact le_trans (retriableStep_now_le d a s) (ih (a + 1) _)

theorem fetchLoop_pacing_extend (net : Nat → AttemptOutcome) (k : Nat) (d : ℚ) :
    ∀ (fuel a : Nat) (s : FetchState),
      ∃ l, (fetchLoop net k d fuel a s).2.pacingSleeps = s.pacingSleeps ++ l := by
  intro fuel
  induction fuel with
  | zero => intro a s; exact ⟨[], by simp [fetchLoop]⟩
  | succ fuel ih =>
      intro a s
      rw [fetchLoop]
      cases net a with
      | ok doc => exact ⟨_, stepDelay_pacing d s⟩
      | fatal msg => exact ⟨_, stepDelay_pacing d s⟩
      | retriable msg =>
          dsimp only
          split
          · exact ⟨_, stepDelay_pacing d s⟩
          · obtain ⟨l, hl⟩ := ih (a + 1) (retriableStep d a s)
            exact ⟨_, by rw [hl, retriableStep_pacing, List.append_assoc]⟩

theorem fetchLoop_succ_ok (net : Nat → AttemptOutcome) (k : Nat) (d : ℚ)
    (fuel a : Nat) (s : FetchState) (doc : String) (h : net a = .ok doc) :
    fetchLoop net k d (fuel + 1) a s = (.ok doc, stepDelay d s) := by
  rw [fetchLoop, h]

theorem fetchLoop_succ_fatal (net : Nat → AttemptOutcome) (k : Nat) (d : ℚ)
    (fuel a : Nat) (s : FetchState) (m : String) (h : net a = .fatal m) :
    fetchLoop net k d (fuel + 1) a s = (.error (.propagated m), stepDelay d s) := by
  rw [fetchLoop, h]

theorem fetchLoop_succ_last (net : Nat → AttemptOutcome) (k : Nat) (d : ℚ)
    (fuel a : Nat) (s : FetchState) (m : String) (h : net a = .retriable m)
    (ha : a = k - 1) :
    fetchLoop net k d (fuel + 1) a s = (.error (.retriesExhausted k m), stepDelay d s) := by
  rw [fetchLoop, h]
  dsimp only
  rw [if_pos ha]

theorem scrape_url_fst_url (net : Nat → AttemptOutcome) (url : String)
    (config : ScraperConfig) (now : ℚ) : (scrape_url net url config now).1.url = url := by
  unfold scrape_url
  cases h : (HTTPClient.init config).fetch net now with
  | mk res st => cases res <;> rfl

theorem scrape_url_snd (net : Nat → AttemptOutcome) (url : String)
    (config : ScraperConfig) (now : ℚ) :
    (scrape_url net url config now).2 = ((HTTPClient.init config).fetch net now).2 := by
  unfold scrape_url
  cases h : (HTTPClient.init config).fetch net now with
  | mk res st => cases res <;> rfl

theorem scrape_url_of_ok (net : Nat → AttemptOutcome) (url : String)
    (config : ScraperConfig) (now : ℚ) (doc : String) (st : FetchState)
    (h : (HTTPClient.init config).fetch net now = (.ok doc, st)) :
    (scrape_url net url config now).1 =
      { url := url, status := some 200, data := none,
        error := some "can only concatenate str (not \"bytes\") to str" } := by
  unfold scrape_url
  rw [h]
  rfl

theorem scrape_url_of_error (net : Nat → AttemptOutcome) (url : String)
    (config : ScraperConfig) (now : ℚ) (e : FetchErr) (st : FetchState)
    (h : (HTTPClient.init config).fetch net now = (.error e, st)) :
    (scrape_url net url config now).1 =
      { url := url, status := none, data := none, error := some e.message } := by
  unfold scrape_url
  rw [h]

/-- C2: with `maxRetries = k ≥ 1` and every attempt failing retriably,
`HTTPClient.fetch` performs exactly `k` attempts and fails with the
retries-exhausted error carrying `k` and the last attempt's cause; if the
source first succeeds on attempt `i ≤ k` (1-based), it performs exactly `i`
attempts and returns the bytes read on attempt `i`. -/
theorem fetch_retry_semantics :
    (∀ (client : HTTPClient) (net : Nat → AttemptOutcome) (msg : Nat → String) (now : ℚ),
       1 ≤ client.max_retries →
       (∀ i, i < client.max_retries → net i = .retriable (msg i)) →
       (client.fetch net now).1 =
           .error (.retriesExhausted client.max_retries (msg (client.max_retries - 1))) ∧
         (client.fetch net now).2.attempts = client.max_retries) ∧
    (∀ (client : HTTPClient) (net : Nat → AttemptOutcome) (msg : Nat → String)
       (doc : String) (now : ℚ) (i : Nat),
       1 ≤ i → i ≤ client.max_retries →
       (∀ j, j < i - 1 → net j = .retriable (msg j)) →
       net (i - 1) = .ok doc →
       (client.fetch net now).1 = .ok doc ∧ (client.fetch net now).2.attempts = i) := by
  constructor
  · intro client net msg now hk hnet
    unfold HTTPClient.fetch
    rw [fetchLoop_skip net client.max_retries client.delay msg (client.max_retries - 1) 0
        client.max_retries _ (fun j _ hj2 => hnet j (by omega)) (by omega) (by omega)]
    have h1 : client.max_retries - (client.max_retries - 1) = 0 + 1 := by omega
    have h2 : 0 + (client.max_retries - 1) = client.max_retries - 1 := by omega
    rw [h1, h2, fetchLoop_succ_last net client.max_retries client.delay 0
        (client.max_retries - 1) _ (msg (client.max_retries - 1))
        (hnet (client.max_retries - 1) (by omega)) rfl]
    refine ⟨rfl, ?_⟩
    simp [stepDelay_attempts, iterRetriable_attempts]
    omega
  · intro client net msg doc now i hi hik hpre hok
    unfold HTTPClient.fetch
    rw [fetchLoop_skip net client.max_retries client.delay msg (i - 1) 0
        client.max_retries _ (fun j _ hj2 => hpre j (by omega)) (by omega) (by omega)]
    have h1 : client.max_retries - (i - 1) = (client.max_retries - i) + 1 := by omega
    have h2 : 0 + (i - 1) = i - 1 := by omega
    rw [h1, h2, fetchLoop_succ_ok net client.max_retries client.delay
        (client.max_retries - i) (i - 1) _ doc hok]
    refine ⟨rfl, ?_⟩
    simp [stepDelay_attempts, iterRetriable_attempts]
    omega

/-- Witness for C2: three attempts, all retriable, then two attempts with
success on the second. -/
theorem fetch_retry_semantics_witness :
    ((1 : Nat) ≤ 3 ∧
      ((⟨1, 3, 0⟩ : HTTPClient).fetch (fun _ => .retriable "boom") 5).1 =
          .error (.retriesExhausted 3 "boom") ∧
      ((⟨1, 3, 0⟩ : HTTPClient).fetch (fun _ => .retriable "boom") 5).2.attempts = 3) ∧
    (((⟨1, 3, 0⟩ : HTTPClient).fetch
          (fun j => if j = 0 then .retriable "e0" else .ok "doc") 5).1 = .ok "doc" ∧
      ((⟨1, 3, 0⟩ : HTTPClient).fetch
          (fun j => if j = 0 then .retriable "e0" else .ok "doc") 5).2.attempts = 2) :=
  ⟨⟨by omega,
    fetch_retry_semantics.1 ⟨1, 3, 0⟩ (fun _ => .retriable "boom") (fun _ => "boom") 5
      (by decide) (fun i _ => rfl)⟩,
    fetch_retry_semantics.2 ⟨1, 3, 0⟩ (fun j => if j = 0 then .retriable "e0" else .ok "doc")
      (fun _ => "e0") "doc" 5 2 (by decide) (by decide)
      (by intro j hj; interval_cases j; rfl) rfl⟩

/-- C10: a non-retriable (non-`URLError`) exception on attempt `i` propagates
out of `fetch` at once — attempt count `i + 1`, no backoff sleep for it — and
`scrape_url` catches it and turns it into an error outcome. -/
theorem fetch_fatal_propagates (config : ScraperConfig) (net : Nat → AttemptOutcome)
    (msg : Nat → String) (url : String) (now : ℚ) (i : Nat) (m : String)
    (hik : i < config.max_retries)
    (hpre : ∀ j, j < i → net j = .retriable (msg j))
    (hfat : net i = .fatal m) :
    ((HTTPClient.init config).fetch net now).1 = .error (.propagated m) ∧
    ((HTTPClient.init config).fetch net now).2.attempts = i + 1 ∧
    ((HTTPClient.init config).fetch net now).2.backoffSleeps =
      (List.range i).map (fun j => (2 : ℚ) ^ j) ∧
    (scrape_url net url config now).1.error = some m ∧
    (scrape_url net url config now).1.data = none := by
  have hfetch : (HTTPClient.init config).fetch net now =
      (.error (.propagated m),
        stepDelay config.delay (iterRetriable config.delay 0 i
          { now := now, last := 0, attempts := 0, pacingSleeps := [], backoffSleeps := [] })) := by
    unfold HTTPClient.fetch
    rw [show (HTTPClient.init config).max_retries = config.max_retries from rfl,
        show (HTTPClient.init config).delay = config.delay from rfl,
        show (HTTPClient.init config).last_request_time = (0 : ℚ) from rfl]
    rw [fetchLoop_skip net config.max_retries config.delay msg i 0
        config.max_retries _ (fun j _ hj2 => hpre j (by omega)) (by omega) (by omega)]
    have h1 : config.max_retries - i = (config.max_retries - i - 1) + 1 := by omega
    have h2 : 0 + i = i := by omega
    rw [h1, h2, fetchLoop_succ_fatal net config.max_retries config.delay
        (config.max_retries - i - 1) i _ m hfat]
  refine ⟨by rw [hfetch], ?_, ?_, ?_, ?_⟩
  · rw [hfetch]
    simp [stepDelay_attempts, iterRetriable_attempts]
  · rw [hfetch]
    simp [stepDelay_backoff, iterRetriable_backoff]
  · rw [scrape_url_of_error net url config now _ _ hfetch]
    rfl
  · rw [scrape_url_of_error net url config now _ _ hfetch]

/-- Witness for C10: a retriable failure, then a `ValueError`-style exception
on the second attempt. -/
theorem fetch_fatal_propagates_witness :
    (1 : Nat) < 3 ∧
    ((HTTPClient.init ⟨"ua", 1, 3, 10, "json", "r.json"⟩).fetch
        (fun j => if j = 0 then .retriable "e0" else .fatal "ValueError: unknown url type") 5).1 =
      .error (.propagated "ValueError: unknown url type") ∧
    (scrape_url (fun j => if j = 0 then .retriable "e0" else .fatal "ValueError: unknown url type")
        "u" ⟨"ua", 1, 3, 10, "json", "r.json"⟩ 5).1.error = some "ValueError: unknown url type" :=
  have h := fetch_fatal_propagates ⟨"ua", 1, 3, 10, "json", "r.json"⟩
    (fun j => if j = 0 then .retriable "e0" else .fatal "ValueError: unknown url type")
    (fun _ => "e0") "u" 5 1 "ValueError: unknown url type" (by decide)
    (by intro j hj; interval_cases j; rfl) rfl
  ⟨by omega, h.1, h.2.2.2.1⟩

theorem fetch_now_le (client : HTTPClient) (net : Nat → AttemptOutcome) (now : ℚ) :
    now ≤ (client.fetch net now).2.now := by
  unfold HTTPClient.fetch
  exact fetchLoop_now_le net client.max_retries client.delay client.max_retries 0
    { now := now, last := client.last_request_time, attempts := 0,
      pacingSleeps := [], backoffSleeps := [] }

theorem fetch_first_pacing (client : HTTPClient) (net : Nat → AttemptOutcome) (now : ℚ)
    (hk : 1 ≤ client.max_retries) (hlast : client.last_request_time = 0)
    (hnow : client.delay ≤ now) :
    (client.fetch net now).2.pacingSleeps.head? = some 0 := by
  unfold HTTPClient.fetch
  rw [hlast]
  obtain ⟨f, hf⟩ : ∃ f, client.max_retries = f + 1 := ⟨client.max_retries - 1, by omega⟩
  rw [hf, fetchLoop]
  have hno : stepDelay client.delay ⟨now, 0, 0, [], []⟩ = ⟨now, now, 1, [0], []⟩ := by
    unfold stepDelay enforceDelay
    dsimp only
    rw [if_neg (not_lt.mpr (by linarith))]
    rfl
  cases hn : net 0 with
  | ok doc =>
      dsimp only
      rw [hno]
      rfl
  | fatal m =>
      dsimp only
      rw [hno]
      rfl
  | retriable m =>
      dsimp only
      by_cases h0 : (0 : Nat) = f + 1 - 1
      · rw [if_pos h0, hno]
        rfl
      · rw [if_neg h0]
        obtain ⟨l, hl⟩ := fetchLoop_pacing_extend net (f + 1) client.delay f 1
          (retriableStep client.delay 0 ⟨now, 0, 0, [], []⟩)
        rw [hl]
        have hp : (retriableStep client.delay 0 ⟨now, 0, 0, [], []⟩).pacingSleeps = [0] := by
          rw [retriableStep_pacing]
          have hz : (enforceDelay client.delay (FetchState.now ⟨now, 0, 0, [], []⟩)
              (FetchState.last ⟨now, 0, 0, [], []⟩)).slept = 0 := by
            unfold enforceDelay
            dsimp only
            rw [if_neg (not_lt.mpr (by linarith))]
          rw [hz]
          rfl
        rw [hp]
        rfl

/-- C1: the per-URL loop of `main` yields exactly one `ScrapingResult` per
input URL, in input order, no matter how the individual fetches turn out. -/
theorem mainLoop_one_outcome_per_url (net : Nat → Nat → AttemptOutcome)
    (config : ScraperConfig) (urls : List String) (now : ℚ) :
    (mainLoop net config urls now).length = urls.length ∧
    (mainLoop net config urls now).map (fun p => p.1.url) = urls := by
  have hmap : ∀ (urls : List String) (net : Nat → Nat → AttemptOutcome) (now : ℚ),
      (mainLoop net config urls now).map (fun p => p.1.url) = urls := by
    intro urls
    induction urls with
    | nil => intro net now; rfl
    | cons u rest ih =>
        intro net now
        show (scrape_url (net 0) u config now ::
          mainLoop (fun i => net (i + 1)) config rest
            (scrape_url (net 0) u config now).2.now).map (fun p => p.1.url) = u :: rest
        rw [List.map_cons, scrape_url_fst_url, ih]
  refine ⟨?_, hmap urls net now⟩
  have := congrArg List.length (hmap urls net now)
  simpa using this

/-- C5: evaluating the program at a URL whose fetch succeeds.  The source
sets status 200 and then feeds `fetch`'s bytes to the `str`-only parser, so
the extraction call raises `TypeError` on every successful fetch: the outcome
carries status 200 with data null and the `TypeError` message as its error —
contrary to the claim's successful pipeline, no outcome of the program ever
has data set, and every outcome carries an error. -/
theorem scrape_url_success_fetch_type_error :
    (scrape_url (fun _ => .ok "<title>Hi</title>") "https://good.example"
        ⟨"ua", 1, 3, 10, "json", "r.json"⟩ 5).1 =
      { url := "https://good.example", status := some 200, data := none,
        error := some "can only concatenate str (not \"bytes\") to str" } ∧
    (∀ (net : Nat → AttemptOutcome) (url : String) (config : ScraperConfig) (now : ℚ),
      (scrape_url net url config now).1.data = none ∧
      (scrape_url net url config now).1.error.isSome) := by
  refine ⟨by decide, ?_⟩
  intro net url config now
  cases h : (HTTPClient.init config).fetch net now with
  | mk res st =>
      cases res with
      | ok doc =>
          rw [scrape_url_of_ok net url config now doc st h]
          exact ⟨rfl, rfl⟩
      | error e =>
          rw [scrape_url_of_error net url config now e st h]
          exact ⟨rfl, rfl⟩

/-- C8: for delay `d ≥ 0`, two consecutive `_enforce_delay` calls — the
second beginning `dt ≥ 0` seconds after the first returns — record dispatch
timestamps at least `d` apart; when the elapsed gap `dt` is below `d` the
second call sleeps exactly the remaining difference before recording, and
when `dt ≥ d` it does not sleep. -/
theorem enforce_delay_pacing (d now last dt : ℚ) (hd : 0 ≤ d) (hdt : 0 ≤ dt) :
    d ≤ (enforceDelay d ((enforceDelay d now last).now + dt) (enforceDelay d now last).last).last
        - (enforceDelay d now last).last ∧
    (dt < d →
      (enforceDelay d ((enforceDelay d now last).now + dt) (enforceDelay d now last).last).slept
        = d - dt) ∧
    (d ≤ dt →
      (enforceDelay d ((enforceDelay d now last).now + dt) (enforceDelay d now last).last).slept
        = 0) := by
  unfold enforceDelay
  dsimp only
  split_ifs with h1 h2 h3 <;> dsimp only <;>
    refine ⟨by linarith, fun h => by linarith, fun h => by linarith⟩

/-- Witness for C8: delay 1, the second call 0 seconds after the first. -/
theorem enforce_delay_pacing_witness :
    (0 : ℚ) ≤ 1 ∧ (0 : ℚ) ≤ 0 ∧
    ((1 : ℚ) ≤
      (enforceDelay 1 ((enforceDelay 1 5 0).now + 0) (enforceDelay 1 5 0).last).last
        - (enforceDelay 1 5 0).last ∧
      ((0 : ℚ) < 1 →
        (enforceDelay 1 ((enforceDelay 1 5 0).now + 0) (enforceDelay 1 5 0).last).slept
          = 1 - 0)) :=
  have h := enforce_delay_pacing 1 5 0 0 (by norm_num) (by norm_num)
  ⟨by norm_num, by norm_num, h.1, fun hh => h.2.1 hh⟩

/-- C9: `scrape_url` builds a fresh `HTTPClient` whose `last_request_time` is
0, so pacing state is never shared across URLs: whenever the wall clock is at
least the configured delay, the URL's first pacing call sleeps 0, and in a
run over several URLs the next URL's first pacing call also sleeps 0 — no
interval is enforced between the last attempt of one URL and the first
attempt of the next. -/
theorem fresh_client_no_cross_url_pacing (config : ScraperConfig)
    (net : Nat → Nat → AttemptOutcome) (u1 u2 : String) (rest : List String) (now : ℚ)
    (hk : 1 ≤ config.max_retries) (hnow : config.delay ≤ now) :
    (HTTPClient.init config).last_request_time = 0 ∧
    (scrape_url (net 0) u1 config now).2.pacingSleeps.head? = some 0 ∧
    ((mainLoop net config (u1 :: u2 :: rest) now)[1]?).map
        (fun p => p.2.pacingSleeps.head?) = some (some 0) := by
  have hone : ∀ (net1 : Nat → AttemptOutcome) (u : String) (t : ℚ), config.delay ≤ t →
      (scrape_url net1 u config t).2.pacingSleeps.head? = some 0 := by
    intro net1 u t ht
    rw [scrape_url_snd]
    exact fetch_first_pacing (HTTPClient.init config) net1 t hk rfl ht
  refine ⟨rfl, hone (net 0) u1 now hnow, ?_⟩
  show ((scrape_url (net 0) u1 config now ::
      scrape_url (net 1) u2 config (scrape_url (net 0) u1 config now).2.now ::
      mainLoop (fun i => net (i + 1 + 1)) config rest
        (scrape_url (net 1) u2 config (scrape_url (net 0) u1 config now).2.now).2.now)[1]?).map
      (fun p => p.2.pacingSleeps.head?) = some (some 0)
  rw [List.getElem?_cons_succ, List.getElem?_cons_zero, Option.map_some']
  have hmono : now ≤ (scrape_url (net 0) u1 config now).2.now := by
    rw [scrape_url_snd]
    exact fetch_now_le (HTTPClient.init config) (net 0) now
  rw [hone (net 1) u2 _ (le_trans hnow hmono)]

/-- Witness for C9: delay 1, three allowed attempts, clock starting at 5. -/
theorem fresh_client_no_cross_url_pacing_witness :
    (1 : Nat) ≤ (⟨"ua", 1, 3, 10, "json", "r.json"⟩ : ScraperConfig).max_retries ∧
    (⟨"ua", 1, 3, 10, "json", "r.json"⟩ : ScraperConfig).delay ≤ (5 : ℚ) ∧
    (HTTPClient.init ⟨"ua", 1, 3, 10, "json", "r.json"⟩).last_request_time = 0 ∧
    (scrape_url ((fun _ _ => .retriable "x") 0) "a" ⟨"ua", 1, 3, 10, "json", "r.json"⟩
        5).2.pacingSleeps.head? = some 0 ∧
    ((mainLoop (fun _ _ => .retriable "x") ⟨"ua", 1, 3, 10, "json", "r.json"⟩
        ("a" :: "b" :: []) 5)[1]?).map (fun p => p.2.pacingSleeps.head?) = some (some 0) :=
  have h := fresh_client_no_cross_url_pacing ⟨"ua", 1, 3, 10, "json", "r.json"⟩
    (fun _ _ => .retriable "x") "a" "b" [] 5 (by decide) (show (1 : ℚ) ≤ 5 by norm_num)
  ⟨by decide, show (1 : ℚ) ≤ 5 by norm_num, h.1, h.2.1, h.2.2⟩

/-- C6: with CSV output configured, `save_results` produces exactly one
header row `URL,Status,Title,Links,Error` followed by one row per outcome in
sequence order; the title cell is the record's title or the empty string when
the record is null, the links cell joins the record's links with the literal
separator `", "` or is empty when the record is null, and the error cell is
the error message or the empty string when there is none. -/
theorem save_results_csv_rows (results : List ScrapingResult) (config : ScraperConfig)
    (h : config.output_format = "csv") :
    ResultHandler.save_results results config = .ok (.csv (
      ["URL", "Status", "Title", "Links", "Error"] ::
      results.map (fun r =>
        [ r.url,
          statusCell r.status,
          (r.data.map ExtractedData.title).getD "",
          (r.data.map (fun d => String.intercalate ", " d.links)).getD "",
          r.error.getD "" ]))) := by
  unfold ResultHandler.save_results
  rw [h]
  rw [if_neg (by decide), if_pos rfl]
  congr 2
  congr 1
  apply List.map_congr_left
  intro r _
  unfold csvRow
  cases hd : r.data <;> cases he : r.error <;> rfl

/-- Witness for C6: one successful outcome with two links and one failed
outcome. -/
theorem save_results_csv_rows_witness :
    (⟨"ua", 1, 3, 10, "csv", "r.csv"⟩ : ScraperConfig).output_format = "csv" ∧
    ResultHandler.save_results
        [⟨"https://good.example", some 200, some ⟨"T", ["/a", "/b"], []⟩, none⟩,
         ⟨"https://bad.example", none, none, some "Failed after 2 attempts: timed out"⟩]
        ⟨"ua", 1, 3, 10, "csv", "r.csv"⟩ =
      .ok (.csv [["URL", "Status", "Title", "Links", "Error"],
        ["https://good.example", "200", "T", "/a, /b", ""],
        ["https://bad.example", "", "", "", "Failed after 2 attempts: timed out"]]) :=
  ⟨rfl, by
    rw [save_results_csv_rows
        [⟨"https://good.example", some 200, some ⟨"T", ["/a", "/b"], []⟩, none⟩,
         ⟨"https://bad.example", none, none, some "Failed after 2 attempts: timed out"⟩]
        ⟨"ua", 1, 3, 10, "csv", "r.csv"⟩ rfl]
    rfl⟩

/-- C7: an output format that is neither `json` nor `csv` makes
`save_results` fail with the unsupported-format error; no output document of
either kind is produced. -/
theorem save_results_unsupported_format (results : List ScrapingResult)
    (config : ScraperConfig) (hj : config.output_format ≠ "json")
    (hc : config.output_format ≠ "csv") :
    ResultHandler.save_results results config =
      .error ("Unsupported output format: " ++ config.output_format) := by
  unfold ResultHandler.save_results
  rw [if_neg hj, if_neg hc]

/-- Witness for C7: output format `xml`. -/
theorem save_results_unsupported_format_witness :
    (⟨"ua", 1, 3, 10, "xml", "r.xml"⟩ : ScraperConfig).output_format ≠ "json" ∧
    (⟨"ua", 1, 3, 10, "xml", "r.xml"⟩ : ScraperConfig).output_format ≠ "csv" ∧
    ResultHandler.save_results [] ⟨"ua", 1, 3, 10, "xml", "r.xml"⟩ =
      .error ("Unsupported output format: " ++ "xml") :=
  ⟨by decide, by decide,
    save_results_unsupported_format [] ⟨"ua", 1, 3, 10, "xml", "r.xml"⟩ (by decide) (by decide)⟩

theorem scanFrom_cons (st : ScanState) (c : Char) (cs : List Char) :
    scanFrom st (c :: cs) =
      ((scanFrom (scanStep st c).1 cs).1,
        (scanStep st c).2 ++ (scanFrom (scanStep st c).1 cs).2) := rfl

theorem scanFrom_append : ∀ (a b : List Char) (st : ScanState),
    scanFrom st (a ++ b) =
      ((scanFrom (scanFrom st a).1 b).1,
        (scanFrom st a).2 ++ (scanFrom (scanFrom st a).1 b).2) := by
  intro a
  induction a with
  | nil => intro b st; simp [scanFrom]
  | cons c a ih =>
      intro b st
      rw [List.cons_append, scanFrom_cons, ih b (scanStep st c).1, scanFrom_cons]
      simp [List.append_assoc]

theorem scanStep_txt_lt (acc : List Char) : scanStep (.txt acc) '<' = (.lt, flushTxt acc) := by
  simp [scanStep]

theorem scanStep_lt_opens (c : Char) (h : c.isAlpha = true) :
    scanStep .lt c = (.tag [c], []) := by
  simp [scanStep, h]

theorem scanStep_tag_continues (acc : List Char) (c : Char) (h : ¬(c = '>')) :
    scanStep (.tag acc) c = (.tag (c :: acc), []) := by
  simp [scanStep, h]

theorem scanFrom_tag_absorbs : ∀ (cs acc : List Char),
    cs.contains '>' = false → ∃ acc', scanFrom (.tag acc) cs = (.tag acc', []) := by
  intro cs
  induction cs with
  | nil => intro acc _; exact ⟨acc, rfl⟩
  | cons c cs ih =>
      intro acc h
      rw [List.contains_cons] at h
      have hc : ¬(c = '>') := by
        intro hh
        rw [hh] at h
        simp at h
      have ht : cs.contains '>' = false := by
        rcases Bool.or_eq_false_iff.mp h with ⟨_, h2⟩
        exact h2
      obtain ⟨acc', ha⟩ := ih (c :: acc) ht
      refine ⟨acc', ?_⟩
      rw [scanFrom_cons, scanStep_tag_continues acc c hc, ha]
      rfl

theorem foldl_all_text : ∀ (evs : List MEvent) (st : ParserState),
    evs.all MEvent.isText = true → st.starttagText = none →
    evs.foldl processEvent st = st := by
  intro evs
  induction evs with
  | nil => intro st _ _; rfl
  | cons e evs ih =>
      intro st hall hst
      cases e with
      | startTag n a raw => simp [List.all_cons, MEvent.isText] at hall
      | endTag n => simp [List.all_cons, MEvent.isText] at hall
      | text d =>
          rw [List.foldl_cons]
          have hdata : processEvent st (.text d) = st := by
            show handle_data st d = st
            unfold handle_data
            rw [if_neg (by rw [hst]; simp)]
          rw [hdata]
          exact ih st (by simpa [List.all_cons, MEvent.isText] using hall) hst

theorem handle_starttag_preserves (st : ParserState) (tag : String)
    (attrs : List (String × String)) :
    (handle_starttag st tag attrs).title = st.title ∧
    (handle_starttag st tag attrs).starttagText = st.starttagText := by
  unfold handle_starttag
  split_ifs
  · exact ⟨rfl, rfl⟩
  · cases lookupLast "name" attrs <;> cases lookupLast "content" attrs <;> exact ⟨rfl, rfl⟩
  · exact ⟨rfl, rfl⟩

theorem handle_data_fields (st : ParserState) (d : String) :
    (handle_data st d).title =
      (if st.starttagText = some "<title>" then d.strip else st.title) ∧
    (handle_data st d).starttagText = st.starttagText := by
  unfold handle_data
  split_ifs <;> exact ⟨rfl, rfl⟩

theorem foldl_title_candidates : ∀ (evs : List MEvent) (st : ParserState),
    (evs.foldl processEvent st).title =
      (titleCandidates st.starttagText evs).getLastD st.title := by
  intro evs
  induction evs with
  | nil => intro st; rfl
  | cons e evs ih =>
      intro st
      cases e with
      | startTag n a raw =>
          rw [List.foldl_cons]
          show (evs.foldl processEvent
            (handle_starttag { st with starttagText := some raw } n a)).title = _
          rw [ih, (handle_starttag_preserves _ n a).1, (handle_starttag_preserves _ n a).2]
          rfl
      | endTag n =>
          rw [List.foldl_cons]
          exact ih st
      | text d =>
          rw [List.foldl_cons]
          show (evs.foldl processEvent (handle_data st d)).title = _
          rw [ih, (handle_data_fields st d).2, (handle_data_fields st d).1]
          by_cases h : st.starttagText = some "<title>"
          · rw [if_pos h]
            rw [show titleCandidates st.starttagText (.text d :: evs) =
                d.strip :: titleCandidates st.starttagText evs from by
              rw [titleCandidates, if_pos h]
              rfl]
            rw [List.getLastD_cons]
          · rw [if_neg h]
            rw [show titleCandidates st.starttagText (.text d :: evs) =
                titleCandidates st.starttagText evs from by
              rw [titleCandidates, if_neg h]
              rfl]

theorem tokenize_unclosed_append (p t : String)
    (hp : scanEndsInText p = true) (ht : isUnclosedStartTag t = true) :
    tokenize (p ++ t) = tokenize p := by
  unfold scanEndsInText at hp
  unfold isUnclosedStartTag at ht
  unfold tokenize
  rw [String.data_append, scanFrom_append]
  rcases hsp : (scanFrom (.txt []) p.data).1 with acc | _ | acc
  · split at ht
    case h_1 c rest heq =>
      have ht' := ht
      simp only [Bool.and_eq_true] at ht'
      obtain ⟨hca, hnc⟩ := ht'
      have hgt : (c :: rest).contains '>' = false := by simpa using hnc
      have hcgt : ¬(c = '>') ∧ rest.contains '>' = false := by
        rw [List.contains_cons] at hgt
        rcases Bool.or_eq_false_iff.mp hgt with ⟨h1, h2⟩
        refine ⟨fun hh => ?_, h2⟩
        rw [hh] at h1
        simp at h1
      rw [heq, scanFrom_cons, scanStep_txt_lt, scanFrom_cons, scanStep_lt_opens c hca]
      obtain ⟨acc', habs⟩ := scanFrom_tag_absorbs rest [c] hcgt.2
      rw [habs]
      simp [finalizeScan]
    case h_2 =>
      simp at ht
  · rw [hsp] at hp
    simp [ScanState.isTxt] at hp
  · rw [hsp] at hp
    simp [ScanState.isTxt] at hp

/-- C3: extraction is total and best-effort — a document whose scan yields
only text events extracts the empty record (empty title, no links, no meta);
appending a truncated start tag to a cleanly scanned document leaves the
extraction unchanged (the malformed tail contributes nothing); and the spec's
malformed example, an `<a href="/c">` with no closing tag and no body, yields
exactly its one link and nothing else, not an error. -/
theorem extract_best_effort :
    (∀ (doc : String) (rules : List (String × String)),
        (tokenize doc).all MEvent.isText = true →
        DataExtractor.extract doc rules = { title := "", links := [], meta := [] }) ∧
    (∀ (p t : String) (rules : List (String × String)),
        scanEndsInText p = true → isUnclosedStartTag t = true →
        DataExtractor.extract (p ++ t) rules = DataExtractor.extract p rules) ∧
    DataExtractor.extract "<a href=\"/c\">" [] = { title := "", links := ["/c"], meta := [] } := by
  refine ⟨?_, ?_, ?_⟩
  · intro doc rules hall
    unfold DataExtractor.extract
    rw [foldl_all_text (tokenize doc) initParser hall rfl]
    rfl
  · intro p t rules hp ht
    unfold DataExtractor.extract
    rw [tokenize_unclosed_append p t hp ht]
  · decide

/-- Witness for C3: a tagless document extracts nothing, and a document
truncated inside a start tag extracts the same as its clean prefix. -/
theorem extract_best_effort_witness :
    DataExtractor.extract "hello" [] = { title := "", links := [], meta := [] } ∧
    DataExtractor.extract ("<p>ok" ++ "<a href=\"/c") [] = DataExtractor.extract "<p>ok" [] :=
  ⟨extract_best_effort.1 "hello" [] (by decide),
    extract_best_effort.2.1 "<p>ok" "<a href=\"/c" [] (by decide) (by decide)⟩

/-- C4 counterexample: in `<title>Hi</title>After`, the text `After` occurs
after the title's closing tag, yet it overwrites the previously captured
title `Hi` — the raw text of the most recently opened start tag is still
`<title>`, since end tags never reset it. -/
theorem title_changed_after_closing_tag :
    (DataExtractor.extract "<title>Hi</title>After" []).title = "After" ∧
    (DataExtractor.extract "<title>Hi</title>" []).title = "Hi" ∧
    ("After" : String) ≠ "Hi" := by
  refine ⟨by decide, by decide, by decide⟩

/-- C4 amended: the extracted title is the last (stripped) text run in
document order whose most recently opened start tag has raw text exactly
`<title>` — so text nested after another start tag never sets it, but text
directly after the closing `</title>` (with no intervening start tag) does,
and the empty string results when no such run exists. -/
theorem extract_title_characterization (doc : String) (rules : List (String × String)) :
    (DataExtractor.extract doc rules).title =
      (titleCandidates none (tokenize doc)).getLastD "" := by
  unfold DataExtractor.extract
  exact foldl_title_candidates (tokenize doc) initParser
